import Mathlib

/-!
Verification of the control-flow-graph builder and Mermaid serializer of the
Python Flowchart Generator (`src/app.py`, functions `generate_mermaid_flowchart`
and `parse_code_to_ast`).

The Python visitor is embedded shallowly: each supported AST statement kind
becomes a constructor of `Stmt` carrying the source text that
`ast.unparse` would produce for the relevant fragments.  The mutable
`nodes` / `edges` / `node_counter` state of `parse_code_to_ast` becomes an
explicit `BuildState` threaded through the recursion.  Function inlining can
recurse unboundedly in the source (a call to a function whose body calls a
function, with no depth guard), so the embedded visitor takes a fuel
parameter that decreases on every recursive call; a result of `none` means
the fuel ran out, which models the nontermination / `RecursionError` of the
source.  Everything else is a faithful transcription of the source.
-/

/-- A flowchart node as stored in the `nodes` dict of `parse_code_to_ast`:
a label and a pair of shape delimiter strings. -/
structure FlowNode where
  label : String
  shape : String × String
deriving DecidableEq, Repr

/-- A flowchart edge as appended to the `edges` list: source id (the source
code can append a `None` parent id when visiting from an inlined function
body whose path already terminated), target id, and an edge label. -/
structure FlowEdge where
  src : Option Nat
  tgt : Nat
  lab : String
deriving DecidableEq, Repr

/-- The mutable state of `parse_code_to_ast`: the insertion-ordered node
map (ids are the numeric part of the Python ids `N0`, `N1`, ...), the edge
list, and the `node_counter`. -/
structure BuildState where
  nodes : List (Nat × FlowNode)
  edges : List FlowEdge
  counter : Nat
deriving DecidableEq, Repr

/-- The statement vocabulary of the visitor.  `assign` covers both
`ast.Assign` and `ast.AugAssign` (the source treats them identically and
only their unparsed text matters).  `exprCall` is an `ast.Expr` whose value
is a call to a plain name; `exprOther` is any other expression statement.
`other` is any statement kind outside the explicit vocabulary, handled by
the generic child-visiting fallback; for `funcDef` the fallback visit
amounts to visiting the body statements (its other AST children are
expression-level nodes that create no nodes or edges). -/
inductive Stmt where
  | assign (label : String)
  | exprCall (label : String) (funcName : String)
  | exprOther (label : String)
  | ret (label : String)
  | ifS (test : String) (body orelse : List Stmt)
  | forS (target : String) (body : List Stmt)
  | whileS (test : String) (body : List Stmt)
  | brk
  | cont
  | funcDef (name : String) (args : List String) (body : List Stmt)
  | other (children : List Stmt)

/-- Embeds `add_node` (together with `get_node_id`): stores the node under
the current counter value and increments the counter. -/
def add_node (st : BuildState) (label : String) (shape : String × String) :
    Nat × BuildState :=
  (st.counter,
   ⟨st.nodes ++ [(st.counter, ⟨label, shape⟩)], st.edges, st.counter + 1⟩)

/-- Embeds `edges.append(...)`. -/
def pushEdge (st : BuildState) (e : FlowEdge) : BuildState :=
  ⟨st.nodes, st.edges ++ [e], st.counter⟩

/-- Association-list lookup, embedding a Python dict read `functions[f]`. -/
def lookupFn : List (String × List Stmt) → String → Option (List Stmt)
  | [], _ => none
  | (k, v) :: rest, n => if k = n then some v else lookupFn rest n

/-- Association-list write with Python dict semantics: an existing key keeps
its position and gets the new value, a new key is appended. -/
def insertFn : List (String × List Stmt) → String → List Stmt →
    List (String × List Stmt)
  | [], n, b => [(n, b)]
  | (k, v) :: rest, n, b =>
      if k = n then (k, b) :: rest else (k, v) :: insertFn rest n b

/-- Embeds the pre-pass of `parse_code_to_ast` that fills the `functions`
dict from the top-level `ast.FunctionDef` statements. -/
def buildFunctions (prog : List Stmt) : List (String × List Stmt) :=
  prog.foldl
    (fun m s =>
      match s with
      | .funcDef n _ b => insertFn m n b
      | _ => m)
    []

/-- True exactly on `funcDef`, embedding `isinstance(node, ast.FunctionDef)`. -/
def isFuncDef : Stmt → Bool
  | .funcDef _ _ _ => true
  | _ => false

mutual

/-- Embeds the recursive `visit(node, parent_id, loop_start_id, loop_exit_id)`
of `parse_code_to_ast`.  The fuel decreases on every recursive call; a `none`
result means the fuel was exhausted, modelling the unbounded recursion that
unguarded function inlining can cause in the source. -/
def visit : Nat → List (String × List Stmt) → Stmt → Option Nat →
    Option Nat → Option Nat → BuildState → Option (Option Nat × BuildState)
  | 0, _, _, _, _, _, _ => none
  | fuel + 1, fns, stmt, parent, loopStart, loopExit, st =>
    match stmt with
    | .assign label =>
      let (currentId, st1) := add_node st label ("[/", "/]")
      some (some currentId, pushEdge st1 ⟨parent, currentId, ""⟩)
    | .exprCall label funcName =>
      if funcName = "input" ∨ funcName = "print" then
        let (currentId, st1) := add_node st label ("[/", "/]")
        some (some currentId, pushEdge st1 ⟨parent, currentId, ""⟩)
      else
        match lookupFn fns funcName with
        | some fbody =>
          let (currentId, st1) := add_node st label ("[", "]")
          visitSeqInline fuel fns fbody (some currentId) loopStart loopExit
            (pushEdge st1 ⟨parent, currentId, ""⟩)
        | none =>
          let (currentId, st1) := add_node st label ("[", "]")
          some (some currentId, pushEdge st1 ⟨parent, currentId, ""⟩)
    | .exprOther label =>
      let (currentId, st1) := add_node st label ("[", "]")
      some (some currentId, pushEdge st1 ⟨parent, currentId, ""⟩)
    | .ret label =>
      let (currentId, st1) := add_node st label ("(", ")")
      some (none, pushEdge st1 ⟨parent, currentId, ""⟩)
    | .ifS test body orelse =>
      let (condId, st1) := add_node st ("if " ++ test) ("\x7b", "\x7d")
      let st2 := pushEdge st1 ⟨parent, condId, ""⟩
      match visitSeq fuel fns body (some condId) loopStart loopExit st2 with
      | none => none
      | some (trueEnd, st3) =>
        match
          (if orelse.isEmpty then some (some condId, st3)
           else visitSeq fuel fns orelse (some condId) loopStart loopExit st3)
        with
        | none => none
        | some (falseEnd, st4) =>
          if trueEnd = none ∧ falseEnd = none then some (none, st4)
          else
            let (mergeId, st5) := add_node st4 " " ("((", "))")
            let st6 := match trueEnd with
              | some tId => pushEdge st5 ⟨some tId, mergeId, "Yes"⟩
              | none => st5
            let st7 := match falseEnd with
              | some fId => pushEdge st6 ⟨some fId, mergeId, "No"⟩
              | none => st6
            let st8 := if body.isEmpty then
                pushEdge st7 ⟨some condId, mergeId, "Yes"⟩
              else st7
            let st9 := if orelse.isEmpty then
                pushEdge st8 ⟨some condId, mergeId, "No"⟩
              else st8
            some (some mergeId, st9)
    | .forS target body =>
      let (loopId, st1) := add_node st ("For " ++ target) ("\x7b\x7b", "\x7d\x7d")
      let st2 := pushEdge st1 ⟨parent, loopId, ""⟩
      let (afterId, st3) := add_node st2 " " ("((", "))")
      match visitSeq fuel fns body (some loopId) (some loopId) (some afterId) st3 with
      | none => none
      | some (bodyEnd, st4) =>
        let st5 := match bodyEnd with
          | some bId => pushEdge st4 ⟨some bId, loopId, "Loop"⟩
          | none => st4
        some (some afterId, pushEdge st5 ⟨some loopId, afterId, "End Loop"⟩)
    | .whileS test body =>
      let (loopId, st1) := add_node st ("While " ++ test) ("\x7b\x7b", "\x7d\x7d")
      let st2 := pushEdge st1 ⟨parent, loopId, ""⟩
      let (afterId, st3) := add_node st2 " " ("((", "))")
      match visitSeq fuel fns body (some loopId) (some loopId) (some afterId) st3 with
      | none => none
      | some (bodyEnd, st4) =>
        let st5 := match bodyEnd with
          | some bId => pushEdge st4 ⟨some bId, loopId, "Loop"⟩
          | none => st4
        some (some afterId, pushEdge st5 ⟨some loopId, afterId, "End Loop"⟩)
    | .brk =>
      match loopExit with
      | some e => some (none, pushEdge st ⟨parent, e, "break"⟩)
      | none => some (none, st)
    | .cont =>
      match loopStart with
      | some s => some (none, pushEdge st ⟨parent, s, "continue"⟩)
      | none => some (none, st)
    | .funcDef _ _ body => visitSeq fuel fns body parent loopStart loopExit st
    | .other children => visitSeq fuel fns children parent loopStart loopExit st

/-- Embeds the guarded statement-sequence loops of the source
(`for child in ...: if last: last = visit(child, last, ...)`), used for the
top-level body, conditional branches, loop bodies and the generic fallback:
once the chained value is `None`, later statements are not visited. -/
def visitSeq : Nat → List (String × List Stmt) → List Stmt → Option Nat →
    Option Nat → Option Nat → BuildState → Option (Option Nat × BuildState)
  | 0, _, _, _, _, _, _ => none
  | _ + 1, _, [], parent, _, _, st => some (parent, st)
  | fuel + 1, fns, stmt :: rest, parent, loopStart, loopExit, st =>
    match parent with
    | none => visitSeq fuel fns rest none loopStart loopExit st
    | some p =>
      match visit fuel fns stmt (some p) loopStart loopExit st with
      | none => none
      | some (nxt, st1) => visitSeq fuel fns rest nxt loopStart loopExit st1

/-- Embeds the unguarded loop used when inlining a called function body
(`for func_stmt in functions[f]["body"]: last = visit(func_stmt, last, ...)`):
the next statement is visited even when the chained value is already `None`. -/
def visitSeqInline : Nat → List (String × List Stmt) → List Stmt → Option Nat →
    Option Nat → Option Nat → BuildState → Option (Option Nat × BuildState)
  | 0, _, _, _, _, _, _ => none
  | _ + 1, _, [], parent, _, _, st => some (parent, st)
  | fuel + 1, fns, stmt :: rest, parent, loopStart, loopExit, st =>
    match visit fuel fns stmt parent loopStart loopExit st with
    | none => none
    | some (nxt, st1) => visitSeqInline fuel fns rest nxt loopStart loopExit st1

end

/-- Embeds the main body of `parse_code_to_ast` up to (and excluding) the
creation of the `End` node: the `functions` pre-pass, the `Start` node, the
partition into function definitions and main body, and either the visit of
the main body or (for a program that is only function definitions) the
implicit-entry-point visit of the first function. -/
def mainTraversal (fuel : Nat) (prog : List Stmt) :
    Option (Option Nat × BuildState) :=
  let fns := buildFunctions prog
  let (startId, st1) := add_node ⟨[], [], 0⟩ "Start" ("((", "))")
  match prog.filter (fun s => !isFuncDef s), fns with
  | [], (firstName, fbody) :: _ =>
    let (fdId, st2) := add_node st1 ("def " ++ firstName ++ "(...)") ("[[", "]]")
    visitSeq fuel fns fbody (some fdId) none none
      (pushEdge st2 ⟨some startId, fdId, ""⟩)
  | mainBody, _ => visitSeq fuel fns mainBody (some startId) none none st1

/-- Embeds `parse_code_to_ast`: runs the main traversal, then creates the
`End` node and, when the chained value is not `None`, the final edge into
`End`.  A `none` result models nontermination of the source (exhausted
fuel). -/
def parse_code_to_ast (fuel : Nat) (prog : List Stmt) :
    Option (List (Nat × FlowNode) × List FlowEdge) :=
  match mainTraversal fuel prog with
  | none => none
  | some (lastId, stM) =>
    let (endId, stE) := add_node stM "End" ("((", "))")
    match lastId with
    | some l => some (stE.nodes, (pushEdge stE ⟨some l, endId, ""⟩).edges)
    | none => some (stE.nodes, stE.edges)

/-- Embeds the quote escaping of the serializer: every double-quote
character in a label is replaced by the entity `&quot;`. -/
def escapeQuotes (label : String) : String :=
  label.replace "\"" "&quot;"

/-- Embeds one node line of the serializer: four spaces, the node id, the
opening shape delimiter, the quoted escaped label, the closing shape
delimiter, and a newline. -/
def nodeLine (q : Nat × FlowNode) : String :=
  "    N" ++ toString q.1 ++ q.2.shape.1 ++ "\"" ++ escapeQuotes q.2.label ++
    "\"" ++ q.2.shape.2 ++ "\n"

/-- Embeds one edge line of the serializer, including the `if src and tgt`
guard: an edge whose source id is `None` produces no output (the target id
is always a real id in the source, hence always truthy). -/
def edgeLine (e : FlowEdge) : String :=
  match e.src with
  | none => ""
  | some s =>
    if e.lab = "" then
      "    N" ++ toString s ++ " --> N" ++ toString e.tgt ++ "\n"
    else
      "    N" ++ toString s ++ " -->|" ++ e.lab ++ "| N" ++ toString e.tgt ++ "\n"

/-- The fallback document returned by `generate_mermaid_flowchart` when
parsing or building raises. -/
def parseErrorGraph : String :=
  "graph TD\n    A[Error: Could not parse code]"

/-- Embeds `generate_mermaid_flowchart`.  Its Python argument is a source
string; the external `ast.parse` is modelled by the `parsed` argument, which
is `none` when the external parser raises and otherwise carries the parsed
statement list.  Both a parser exception and a builder exception (modelled
by fuel exhaustion, the `RecursionError` of unbounded inlining) are caught
by the `try` block of the source and produce the fallback document. -/
def generate_mermaid_flowchart (parsed : Option (List Stmt)) (fuel : Nat) :
    String :=
  match parsed with
  | none => parseErrorGraph
  | some prog =>
    match parse_code_to_ast fuel prog with
    | none => parseErrorGraph
    | some (nodes, edges) =>
      "graph TD\n" ++ String.join (nodes.map nodeLine) ++
        String.join (edges.map edgeLine)

/-! ## Concrete input programs used by the claims -/

/-- The program `if x > 0:\n    y = 1\nelse:\n    y = 2` of claim C1. -/
def progIfElse : List Stmt :=
  [.ifS "x > 0" [.assign "y = 1"] [.assign "y = 2"]]

/-- The node list that the build of `progIfElse` produces. -/
def ifElseNodes : List (Nat × FlowNode) :=
  [(0, ⟨"Start", ("((", "))")⟩), (1, ⟨"if x > 0", ("\x7b", "\x7d")⟩),
   (2, ⟨"y = 1", ("[/", "/]")⟩), (3, ⟨"y = 2", ("[/", "/]")⟩),
   (4, ⟨" ", ("((", "))")⟩), (5, ⟨"End", ("((", "))")⟩)]

/-- The edge list that the build of `progIfElse` produces. -/
def ifElseEdges : List FlowEdge :=
  [⟨some 0, 1, ""⟩, ⟨some 1, 2, ""⟩, ⟨some 1, 3, ""⟩,
   ⟨some 2, 4, "Yes"⟩, ⟨some 3, 4, "No"⟩, ⟨some 4, 5, ""⟩]

/-- The program `if x > 0:\n    y = 1` (no else clause) of claim C2. -/
def progIfNoElse : List Stmt := [.ifS "x > 0" [.assign "y = 1"] []]

/-- The program `x = 1\nbreak\ny = 2` (orphan break) of claim C5. -/
def progOrphanBreak : List Stmt := [.assign "x = 1", .brk, .assign "y = 2"]

/-- A program with one assignment and one plain (not inlined, not I/O) call
statement, used to compare the two shapes for claim C7. -/
def progAssignCall : List Stmt := [.assign "x = 1", .exprCall "foo()" "foo"]

/-- The program `if x > 0:\n    return 1\nelse:\n    return 2` of claim C3. -/
def progBothReturn : List Stmt :=
  [.ifS "x > 0" [.ret "return 1"] [.ret "return 2"]]

/-! ## Helper lemmas -/

/-- Once the chained predecessor is `None`, a guarded statement sequence
visits nothing: state unchanged, result still `None`.  The fuel bound only
ensures the fuel does not run out while skipping. -/
theorem visitSeq_skip : ∀ (stmts : List Stmt) (fuel : Nat)
    (fns : List (String × List Stmt)) (ls le : Option Nat) (st : BuildState),
    stmts.length < fuel →
    visitSeq fuel fns stmts none ls le st = some (none, st) := by
  intro stmts
  induction stmts with
  | nil =>
    intro fuel fns ls le st h
    match fuel, h with
    | fuel + 1, _ => rfl
  | cons c rest ih =>
    intro fuel fns ls le st h
    match fuel, h with
    | fuel + 1, h =>
      show visitSeq fuel fns rest none ls le st = some (none, st)
      exact ih fuel fns ls le st (by simpa using Nat.lt_of_succ_lt_succ h)

/-- State evolution invariant of the visitor: a visit only appends nodes
and edges, the appended nodes get consecutive ids starting at the incoming
counter (so ids are unique and strictly increasing in creation order), and
every appended node that has the round `(( ))` delimiters is an anonymous
merge or loop-exit node labeled with a single space — in particular the
visitor never creates a node equal to the Start or End sentinel. -/
def Evolves (st st' : BuildState) : Prop :=
  ∃ dn de,
    st'.nodes = st.nodes ++ dn ∧ st'.edges = st.edges ++ de
    ∧ st'.counter = st.counter + dn.length
    ∧ dn.map Prod.fst = List.range' st.counter dn.length
    ∧ ∀ q ∈ dn, q.2.shape = ("((", "))") → q.2.label = " "

theorem evolves_refl (st : BuildState) : Evolves st st :=
  ⟨[], [], by simp, by simp, by simp, by simp, by simp⟩

theorem evolves_trans {a b c : BuildState}
    (h1 : Evolves a b) (h2 : Evolves b c) : Evolves a c := by
  obtain ⟨dn1, de1, hn1, he1, hc1, hr1, hs1⟩ := h1
  obtain ⟨dn2, de2, hn2, he2, hc2, hr2, hs2⟩ := h2
  refine ⟨dn1 ++ dn2, de1 ++ de2, ?_, ?_, ?_, ?_, ?_⟩
  · rw [hn2, hn1, List.append_assoc]
  · rw [he2, he1, List.append_assoc]
  · rw [hc2, hc1, List.length_append, Nat.add_assoc]
  · rw [List.map_append, hr1, hr2, hc1, List.length_append]
    have hap := List.range'_append a.counter dn1.length dn2.length 1
    rw [one_mul, Nat.add_comm dn2.length dn1.length] at hap
    exact hap
  · intro q hq
    rcases List.mem_append.1 hq with hq | hq
    · exact hs1 q hq
    · exact hs2 q hq

theorem evolves_add (st : BuildState) (l : String) (sh : String × String)
    (h : sh = ("((", "))") → l = " ") : Evolves st (add_node st l sh).2 := by
  refine ⟨[(st.counter, ⟨l, sh⟩)], [], rfl, by simp [add_node], by simp [add_node],
    by simp [add_node], ?_⟩
  intro q hq
  simp only [List.mem_singleton] at hq
  subst hq
  exact h

theorem evolves_push (st : BuildState) (e : FlowEdge) :
    Evolves st (pushEdge st e) :=
  ⟨[], [e], by simp [pushEdge], rfl, by simp [pushEdge], by simp, by simp⟩

theorem evolves_push_left {a b : BuildState} (e : FlowEdge)
    (h : Evolves a b) : Evolves a (pushEdge b e) :=
  evolves_trans h (evolves_push b e)

/-- Every successful run of the visitor (any fuel, any statement, any
sequence) only evolves the state in the sense of `Evolves`. -/
theorem visit_evolves : ∀ (fuel : Nat),
    (∀ fns stmt parent ls le st r st',
      visit fuel fns stmt parent ls le st = some (r, st') → Evolves st st')
    ∧ (∀ fns stmts parent ls le st r st',
      visitSeq fuel fns stmts parent ls le st = some (r, st') → Evolves st st')
    ∧ (∀ fns stmts parent ls le st r st',
      visitSeqInline fuel fns stmts parent ls le st = some (r, st') →
        Evolves st st') := by
  intro fuel
  induction fuel with
  | zero =>
    refine ⟨?_, ?_, ?_⟩ <;>
      (intro fns stmts parent ls le st r st' h;
       exact absurd h (by simp [visit, visitSeq, visitSeqInline]))
  | succ f ih =>
    obtain ⟨ihV, ihS, ihI⟩ := ih
    refine ⟨?_, ?_, ?_⟩
    · -- visit
      intro fns stmt parent ls le st r st' h
      cases stmt with
      | assign label =>
        simp only [visit, Option.some.injEq, Prod.mk.injEq] at h
        obtain ⟨-, hst⟩ := h
        exact hst ▸ evolves_push_left _
          (evolves_add _ _ _ (by intro hsh; exact absurd hsh (by decide)))
      | exprCall label fname =>
        simp only [visit] at h
        split at h
        · simp only [Option.some.injEq, Prod.mk.injEq] at h
          obtain ⟨-, hst⟩ := h
          exact hst ▸ evolves_push_left _
            (evolves_add _ _ _ (by intro hsh; exact absurd hsh (by decide)))
        · split at h
          · exact evolves_trans
              (evolves_push_left _
                (evolves_add _ _ _ (by intro hsh; exact absurd hsh (by decide))))
              (ihI _ _ _ _ _ _ _ _ h)
          · simp only [Option.some.injEq, Prod.mk.injEq] at h
            obtain ⟨-, hst⟩ := h
            exact hst ▸ evolves_push_left _
              (evolves_add _ _ _ (by intro hsh; exact absurd hsh (by decide)))
      | exprOther label =>
        simp only [visit, Option.some.injEq, Prod.mk.injEq] at h
        obtain ⟨-, hst⟩ := h
        exact hst ▸ evolves_push_left _
          (evolves_add _ _ _ (by intro hsh; exact absurd hsh (by decide)))
      | ret label =>
        simp only [visit, Option.some.injEq, Prod.mk.injEq] at h
        obtain ⟨-, hst⟩ := h
        exact hst ▸ evolves_push_left _
          (evolves_add _ _ _ (by intro hsh; exact absurd hsh (by decide)))
      | ifS test body orelse =>
        simp only [visit] at h
        split at h
        · exact absurd h (by simp)
        · rename_i tEnd st3 heqB
          split at h
          · exact absurd h (by simp)
          · rename_i fEnd st4 heqF
            have e12 : Evolves st
                (pushEdge (add_node st ("if " ++ test) ("\x7b", "\x7d")).2
                  ⟨parent, (add_node st ("if " ++ test) ("\x7b", "\x7d")).1, ""⟩) :=
              evolves_push_left _
                (evolves_add _ _ _ (by intro hsh; exact absurd hsh (by decide)))
            have e23 : Evolves _ st3 := ihS _ body _ _ _ _ tEnd st3 heqB
            have e34 : Evolves st3 st4 := by
              by_cases ho : orelse.isEmpty
              · rw [if_pos ho] at heqF
                simp only [Option.some.injEq, Prod.mk.injEq] at heqF
                obtain ⟨-, h4⟩ := heqF
                exact h4 ▸ evolves_refl st3
              · rw [if_neg ho] at heqF
                exact ihS _ orelse _ _ _ _ fEnd st4 heqF
            have eS4 : Evolves st st4 := evolves_trans (evolves_trans e12 e23) e34
            split at h
            · simp only [Option.some.injEq, Prod.mk.injEq] at h
              obtain ⟨-, hst⟩ := h
              exact hst ▸ eS4
            · simp only [Option.some.injEq, Prod.mk.injEq] at h
              obtain ⟨-, hst⟩ := h
              refine hst ▸ evolves_trans eS4 ?_
              repeat' first
                | exact evolves_add _ _ _ (fun _ => rfl)
                | exact evolves_refl _
                | apply evolves_push_left
                | split
      | forS target body =>
        simp only [visit] at h
        split at h
        · exact absurd h (by simp)
        · rename_i bodyEnd st4 heqB
          simp only [Option.some.injEq, Prod.mk.injEq] at h
          obtain ⟨-, hst⟩ := h
          have pre : Evolves st _ := evolves_add
            (pushEdge (add_node st ("For " ++ target) ("\x7b\x7b", "\x7d\x7d")).2
              ⟨parent, (add_node st ("For " ++ target) ("\x7b\x7b", "\x7d\x7d")).1, ""⟩)
            " " ("((", "))") (fun _ => rfl) |>
            evolves_trans (evolves_push_left _
              (evolves_add _ _ _ (by intro hsh; exact absurd hsh (by decide))))
          have eB : Evolves _ st4 := ihS _ body _ _ _ _ bodyEnd st4 heqB
          refine hst ▸ evolves_trans (evolves_trans pre eB) ?_
          repeat' first
            | exact evolves_refl _
            | exact evolves_push _ _
            | apply evolves_push_left
            | split
      | whileS test body =>
        simp only [visit] at h
        split at h
        · exact absurd h (by simp)
        · rename_i bodyEnd st4 heqB
          simp only [Option.some.injEq, Prod.mk.injEq] at h
          obtain ⟨-, hst⟩ := h
          have pre : Evolves st _ := evolves_add
            (pushEdge (add_node st ("While " ++ test) ("\x7b\x7b", "\x7d\x7d")).2
              ⟨parent, (add_node st ("While " ++ test) ("\x7b\x7b", "\x7d\x7d")).1, ""⟩)
            " " ("((", "))") (fun _ => rfl) |>
            evolves_trans (evolves_push_left _
              (evolves_add _ _ _ (by intro hsh; exact absurd hsh (by decide))))
          have eB : Evolves _ st4 := ihS _ body _ _ _ _ bodyEnd st4 heqB
          refine hst ▸ evolves_trans (evolves_trans pre eB) ?_
          repeat' first
            | exact evolves_refl _
            | exact evolves_push _ _
            | apply evolves_push_left
            | split
      | brk =>
        simp only [visit] at h
        split at h <;>
          (simp only [Option.some.injEq, Prod.mk.injEq] at h;
           obtain ⟨-, hst⟩ := h)
        · exact hst ▸ evolves_push _ _
        · exact hst ▸ evolves_refl _
      | cont =>
        simp only [visit] at h
        split at h <;>
          (simp only [Option.some.injEq, Prod.mk.injEq] at h;
           obtain ⟨-, hst⟩ := h)
        · exact hst ▸ evolves_push _ _
        · exact hst ▸ evolves_refl _
      | funcDef name args body =>
        simp only [visit] at h
        exact ihS _ body _ _ _ _ r st' h
      | other children =>
        simp only [visit] at h
        exact ihS _ children _ _ _ _ r st' h
    · -- visitSeq
      intro fns stmts parent ls le st r st' h
      cases stmts with
      | nil =>
        simp only [visitSeq, Option.some.injEq, Prod.mk.injEq] at h
        obtain ⟨-, hst⟩ := h
        exact hst ▸ evolves_refl st
      | cons c rest =>
        cases parent with
        | none =>
          simp only [visitSeq] at h
          exact ihS fns rest none ls le st r st' h
        | some p =>
          simp only [visitSeq] at h
          split at h
          · exact absurd h (by simp)
          · rename_i nxt st1 heq
            exact evolves_trans (ihV fns c (some p) ls le st nxt st1 heq)
              (ihS fns rest nxt ls le st1 r st' h)
    · -- visitSeqInline
      intro fns stmts parent ls le st r st' h
      cases stmts with
      | nil =>
        simp only [visitSeqInline, Option.some.injEq, Prod.mk.injEq] at h
        obtain ⟨-, hst⟩ := h
        exact hst ▸ evolves_refl st
      | cons c rest =>
        simp only [visitSeqInline] at h
        split at h
        · exact absurd h (by simp)
        · rename_i nxt st1 heq
          exact evolves_trans (ihV fns c parent ls le st nxt st1 heq)
            (ihI fns rest nxt ls le st1 r st' h)

/-- A node that is round-shaped only when labeled with a single space is
neither the Start sentinel nor the End sentinel. -/
theorem not_sentinel_of_round (q : FlowNode)
    (hq : q.shape = ("((", "))") → q.label = " ") :
    q ≠ (⟨"Start", ("((", "))")⟩ : FlowNode)
    ∧ q ≠ (⟨"End", ("((", "))")⟩ : FlowNode) := by
  constructor <;> intro he <;> subst he <;> exact absurd (hq rfl) (by decide)

/-- Shape of `List.range` needed for the id invariant. -/
theorem range_shape (n : Nat) :
    List.range (n + 2) = 0 :: (List.range' 1 n ++ [1 + n]) := by
  rw [List.range_eq_range']
  have h1 : List.range' 0 (n + 2) = List.range' 0 (n + 1) ++ [0 + (n + 1)] :=
    List.range'_1_concat 0 (n + 1)
  have h2 : List.range' 0 (n + 1) = 0 :: List.range' 1 n := List.range'_succ 0 n 1
  rw [h1, h2]
  simp [Nat.add_comm]

/-- Any successful main traversal leaves a state whose node list starts
with the Start sentinel at id 0, followed by nodes with consecutive ids
from 1, none of which equals a Start or End sentinel, with the counter one
past the last id. -/
theorem mainTraversal_structure :
    ∀ (fuel : Nat) (prog : List Stmt) (lastId : Option Nat) (stM : BuildState),
    mainTraversal fuel prog = some (lastId, stM) →
    ∃ mid, stM.nodes = (0, ⟨"Start", ("((", "))")⟩) :: mid
      ∧ mid.map Prod.fst = List.range' 1 mid.length
      ∧ stM.counter = 1 + mid.length
      ∧ ∀ q ∈ mid, q.2 ≠ (⟨"Start", ("((", "))")⟩ : FlowNode)
          ∧ q.2 ≠ (⟨"End", ("((", "))")⟩ : FlowNode) := by
  intro fuel prog lastId stM h
  simp only [mainTraversal, add_node, pushEdge] at h
  split at h
  · -- program with an empty main body and a first function as entry point
    rename_i x0 fns0 firstName fbody tail0 hfilter hfns
    obtain ⟨dn, de, hn, he, hc, hr, hs⟩ :=
      (visit_evolves fuel).2.1 _ fbody _ _ _ _ lastId stM h
    simp only [List.nil_append, List.cons_append] at hn hr hc
    refine ⟨(1, ⟨"def " ++ firstName ++ "(...)", ("[[", "]]")⟩) :: dn,
      by simpa using hn, ?_, by simp at hc ⊢; omega, ?_⟩
    · simp only [List.map_cons, List.length_cons]
      rw [hr]
      exact (List.range'_succ 1 dn.length 1).symm
    · intro q hq
      rcases List.mem_cons.1 hq with hq | hq
      · subst hq
        constructor <;> intro he' <;>
        · have hsh : (("[[", "]]") : String × String) = ("((", "))") :=
            congrArg FlowNode.shape he'
          exact absurd hsh (by decide)
      · exact not_sentinel_of_round q.2 (hs q hq)
  · -- ordinary main body
    obtain ⟨dn, de, hn, he, hc, hr, hs⟩ :=
      (visit_evolves fuel).2.1 _ _ _ _ _ _ lastId stM h
    simp only [List.nil_append] at hn hr hc
    refine ⟨dn, by simpa using hn, hr, by simp at hc ⊢; omega, ?_⟩
    intro q hq
    exact not_sentinel_of_round q.2 (hs q hq)

/-! ## Claims -/

/-- Claim C1 (counterexample): for the program
`if x > 0: y = 1 else: y = 2` the claim asserts one PROCESS node per branch
assignment; in the build the branch-assignment nodes carry the parallelogram
delimiters `[/ /]`, and no process-shaped (`[ ]`) node labeled `y = 1` or
`y = 2` exists. -/
theorem c1_assign_nodes_not_process_shaped :
    parse_code_to_ast 99 progIfElse = some (ifElseNodes, ifElseEdges)
    ∧ ifElseNodes.countP
        (fun q => decide (q.2 = ⟨"y = 1", ("[", "]")⟩)) = 0
    ∧ ifElseNodes.countP
        (fun q => decide (q.2 = ⟨"y = 2", ("[", "]")⟩)) = 0
    ∧ (("[/", "/]") : String × String) ≠ ("[", "]") :=
  ⟨rfl, by decide, by decide, by decide⟩

/-- Claim C1 (amended): for the input program
`if x > 0:\n    y = 1\nelse:\n    y = 2`, the build produces exactly the
nodes Start, a decision node labeled with the condition, one
parallelogram-delimited node per branch assignment, one merge node, and
End, and exactly the edges Start→decision (unlabeled), decision→each branch
assignment (unlabeled), branch assignments→merge labeled Yes and No, and
merge→End (unlabeled) — no other nodes or edges. -/
theorem c1_if_else_build_exact :
    parse_code_to_ast 99 progIfElse = some (ifElseNodes, ifElseEdges) := rfl

/-- Claim C2 (code bug): for a conditional with a non-empty,
non-terminating true branch and no else clause, the builder emits the
decision→merge edge labeled No TWICE (once from the non-`None` false-end
guard, since the false end still equals the decision node, and once from
the empty-orelse guard), contradicting the claimed single No edge. -/
theorem c2_duplicate_no_edge :
    parse_code_to_ast 99 progIfNoElse =
      some ([(0, ⟨"Start", ("((", "))")⟩), (1, ⟨"if x > 0", ("\x7b", "\x7d")⟩),
             (2, ⟨"y = 1", ("[/", "/]")⟩), (3, ⟨" ", ("((", "))")⟩),
             (4, ⟨"End", ("((", "))")⟩)],
            [⟨some 0, 1, ""⟩, ⟨some 1, 2, ""⟩, ⟨some 2, 3, "Yes"⟩,
             ⟨some 1, 3, "No"⟩, ⟨some 1, 3, "No"⟩, ⟨some 3, 4, ""⟩])
    ∧ ([⟨some 0, 1, ""⟩, ⟨some 1, 2, ""⟩, ⟨some 2, 3, "Yes"⟩,
        ⟨some 1, 3, "No"⟩, ⟨some 1, 3, "No"⟩, ⟨some 3, 4, ""⟩] : List FlowEdge).countP
        (fun e => decide (e = ⟨some 1, 3, "No"⟩)) = 2 :=
  ⟨rfl, by decide⟩

/-- Claim C5 (counterexample): after an orphan break (no enclosing loop),
the statements that follow it in the same sequence are NOT visited: for
`x = 1; break; y = 2` the build contains no node labeled `y = 2` at all,
and the End node receives no inbound edge. -/
theorem c5_statements_after_orphan_break_not_visited :
    parse_code_to_ast 99 progOrphanBreak =
      some ([(0, ⟨"Start", ("((", "))")⟩), (1, ⟨"x = 1", ("[/", "/]")⟩),
             (2, ⟨"End", ("((", "))")⟩)],
            [⟨some 0, 1, ""⟩])
    ∧ ([(0, ⟨"Start", ("((", "))")⟩), (1, ⟨"x = 1", ("[/", "/]")⟩),
        (2, ⟨"End", ("((", "))")⟩)] : List (Nat × FlowNode)).countP
        (fun q => decide (q.2.label = "y = 2")) = 0 :=
  ⟨rfl, by decide⟩

/-- Claim C5 (amended): a break or continue with no enclosing loop context
adds no edge (silently) and returns `None`, terminating the path like a
return; consequently the statements following it in the same guarded
sequence are skipped (they produce no nodes and no edges), rather than
being visited. -/
theorem c5_orphan_transfer_terminates_path :
    (∀ (fuel : Nat) (fns : List (String × List Stmt)) (p ls : Option Nat)
       (st : BuildState),
       visit (fuel + 1) fns .brk p ls none st = some (none, st))
    ∧ (∀ (fuel : Nat) (fns : List (String × List Stmt)) (p le : Option Nat)
       (st : BuildState),
       visit (fuel + 1) fns .cont p none le st = some (none, st))
    ∧ (∀ (fuel : Nat) (fns : List (String × List Stmt)) (stmts : List Stmt)
       (ls le : Option Nat) (st : BuildState),
       stmts.length < fuel →
       visitSeq fuel fns stmts none ls le st = some (none, st)) := by
  refine ⟨fun _ _ _ _ _ => rfl, fun _ _ _ _ _ => rfl, ?_⟩
  intro fuel fns stmts ls le st h
  exact visitSeq_skip stmts fuel fns ls le st h

/-- Witness for `c5_orphan_transfer_terminates_path` at concrete inputs. -/
theorem c5_orphan_transfer_terminates_path_witness :
    visit 1 [] .brk (some 0) none none ⟨[], [], 0⟩ = some (none, ⟨[], [], 0⟩)
    ∧ visit 1 [] .cont (some 0) none none ⟨[], [], 0⟩ = some (none, ⟨[], [], 0⟩)
    ∧ visitSeq 3 [] [.assign "a = 1"] none none none ⟨[], [], 0⟩ =
        some (none, ⟨[], [], 0⟩) :=
  ⟨c5_orphan_transfer_terminates_path.1 0 [] (some 0) none ⟨[], [], 0⟩,
   c5_orphan_transfer_terminates_path.2.1 0 [] (some 0) none ⟨[], [], 0⟩,
   c5_orphan_transfer_terminates_path.2.2 3 [] [.assign "a = 1"] none none
     ⟨[], [], 0⟩ (by decide)⟩

/-- Claim C6: the flowchart generator never propagates a failure: when the
external parse fails, or the build fails (modelled by fuel exhaustion, the
unbounded recursion of the source), the result is exactly the one-node
fallback document — the header line plus a single error node, with no edge
lines (the fallback contains no arrow at all). -/
theorem c6_failure_yields_fallback :
    ∀ (parsed : Option (List Stmt)) (fuel : Nat),
    (parsed = none ∨ ∃ prog, parsed = some prog ∧
        parse_code_to_ast fuel prog = none) →
    generate_mermaid_flowchart parsed fuel = parseErrorGraph
    ∧ parseErrorGraph = "graph TD\n" ++ "    A[Error: Could not parse code]"
    ∧ parseErrorGraph.toList.count '>' = 0 := by
  intro parsed fuel h
  refine ⟨?_, rfl, by decide⟩
  rcases h with h | ⟨prog, hp, hb⟩
  · subst h; rfl
  · subst hp
    simp [generate_mermaid_flowchart, hb]

/-- Witness for `c6_failure_yields_fallback`: a failed external parse and a
build that exhausts its fuel both produce the fallback document. -/
theorem c6_failure_yields_fallback_witness :
    (generate_mermaid_flowchart none 7 = parseErrorGraph
      ∧ parseErrorGraph = "graph TD\n" ++ "    A[Error: Could not parse code]"
      ∧ parseErrorGraph.toList.count '>' = 0)
    ∧ (generate_mermaid_flowchart (some [.assign "x = 1"]) 0 = parseErrorGraph
      ∧ parseErrorGraph = "graph TD\n" ++ "    A[Error: Could not parse code]"
      ∧ parseErrorGraph.toList.count '>' = 0) :=
  ⟨c6_failure_yields_fallback none 7 (Or.inl rfl),
   c6_failure_yields_fallback (some [.assign "x = 1"]) 0
     (Or.inr ⟨[.assign "x = 1"], rfl, rfl⟩)⟩

/-- Claim C7 (counterexample): the node created for an assignment has the
parallelogram delimiters `[/ /]`, which differ from the `[ ]` delimiters of
a plain (non-I/O, non-inlined) expression-statement node, contradicting the
claimed shared process shape. -/
theorem c7_assign_shape_differs_from_plain_expr :
    parse_code_to_ast 99 progAssignCall =
      some ([(0, ⟨"Start", ("((", "))")⟩), (1, ⟨"x = 1", ("[/", "/]")⟩),
             (2, ⟨"foo()", ("[", "]")⟩), (3, ⟨"End", ("((", "))")⟩)],
            [⟨some 0, 1, ""⟩, ⟨some 1, 2, ""⟩, ⟨some 2, 3, ""⟩])
    ∧ (("[/", "/]") : String × String) ≠ ("[", "]") :=
  ⟨rfl, by decide⟩

/-- Claim C3: if the true-branch traversal and the (non-empty) false-branch
traversal of a conditional both come back with `None`, then visiting the
conditional returns `None` and leaves the state exactly as the branch
traversals left it — no merge node and no merge edges are created; and at
the orchestrator level, a main traversal that ends with `None` adds the End
node but no inbound edge into it. -/
theorem c3_terminating_conditional_no_merge :
    (∀ (fuel : Nat) (fns : List (String × List Stmt)) (test : String)
       (body orelse : List Stmt) (parent ls le : Option Nat)
       (st st2 st3 : BuildState),
       orelse ≠ [] →
       visitSeq fuel fns body (some st.counter) ls le
         ⟨st.nodes ++ [(st.counter, ⟨"if " ++ test, ("\x7b", "\x7d")⟩)],
          st.edges ++ [⟨parent, st.counter, ""⟩], st.counter + 1⟩ =
         some (none, st2) →
       visitSeq fuel fns orelse (some st.counter) ls le st2 = some (none, st3) →
       visit (fuel + 1) fns (.ifS test body orelse) parent ls le st =
         some (none, st3))
    ∧ (∀ (fuel : Nat) (prog : List Stmt) (stM : BuildState),
       mainTraversal fuel prog = some (none, stM) →
       parse_code_to_ast fuel prog =
         some (stM.nodes ++ [(stM.counter, ⟨"End", ("((", "))")⟩)],
               stM.edges)) := by
  constructor
  · intro fuel fns test body orelse parent ls le st st2 st3 hne h1 h2
    obtain ⟨o, os, rfl⟩ := List.exists_cons_of_ne_nil hne
    simp only [visit, add_node, pushEdge]
    rw [h1]
    simp only [List.isEmpty_cons, Bool.false_eq_true, if_false]
    rw [h2]
    simp
  · intro fuel prog stM h
    simp [parse_code_to_ast, h, add_node]

/-- Witness for `c3_terminating_conditional_no_merge` at concrete inputs:
an if-else whose two branches both return. -/
theorem c3_terminating_conditional_no_merge_witness :
    visit 4 [] (.ifS "x > 0" [.ret "return 1"] [.ret "return 2"])
        (some 0) none none ⟨[(0, ⟨"Start", ("((", "))")⟩)], [], 1⟩ =
      some (none,
        ⟨[(0, ⟨"Start", ("((", "))")⟩), (1, ⟨"if x > 0", ("\x7b", "\x7d")⟩),
          (2, ⟨"return 1", ("(", ")")⟩), (3, ⟨"return 2", ("(", ")")⟩)],
         [⟨some 0, 1, ""⟩, ⟨some 1, 2, ""⟩, ⟨some 1, 3, ""⟩], 4⟩)
    ∧ parse_code_to_ast 9 progBothReturn =
      some ([(0, ⟨"Start", ("((", "))")⟩), (1, ⟨"if x > 0", ("\x7b", "\x7d")⟩),
             (2, ⟨"return 1", ("(", ")")⟩), (3, ⟨"return 2", ("(", ")")⟩),
             (4, ⟨"End", ("((", "))")⟩)],
            [⟨some 0, 1, ""⟩, ⟨some 1, 2, ""⟩, ⟨some 1, 3, ""⟩]) :=
  ⟨c3_terminating_conditional_no_merge.1 3 [] "x > 0"
     [.ret "return 1"] [.ret "return 2"] (some 0) none none
     ⟨[(0, ⟨"Start", ("((", "))")⟩)], [], 1⟩
     ⟨[(0, ⟨"Start", ("((", "))")⟩), (1, ⟨"if x > 0", ("\x7b", "\x7d")⟩),
       (2, ⟨"return 1", ("(", ")")⟩)],
      [⟨some 0, 1, ""⟩, ⟨some 1, 2, ""⟩], 3⟩
     ⟨[(0, ⟨"Start", ("((", "))")⟩), (1, ⟨"if x > 0", ("\x7b", "\x7d")⟩),
       (2, ⟨"return 1", ("(", ")")⟩), (3, ⟨"return 2", ("(", ")")⟩)],
      [⟨some 0, 1, ""⟩, ⟨some 1, 2, ""⟩, ⟨some 1, 3, ""⟩], 4⟩
     (List.cons_ne_nil _ _) rfl rfl,
   c3_terminating_conditional_no_merge.2 9 progBothReturn
     ⟨[(0, ⟨"Start", ("((", "))")⟩), (1, ⟨"if x > 0", ("\x7b", "\x7d")⟩),
       (2, ⟨"return 1", ("(", ")")⟩), (3, ⟨"return 2", ("(", ")")⟩)],
      [⟨some 0, 1, ""⟩, ⟨some 1, 2, ""⟩, ⟨some 1, 3, ""⟩], 4⟩ rfl⟩

/-- Claim C9: once a statement of a guarded sequence is visited and returns
`None` (terminated path), the rest of that sequence contributes nothing:
the sequence result is `None` with the state exactly as the terminating
statement left it (no later node, no later edge). -/
theorem c9_none_skips_rest_of_sequence :
    ∀ (fuel : Nat) (fns : List (String × List Stmt)) (stmt : Stmt)
      (rest : List Stmt) (p : Nat) (ls le : Option Nat) (st st' : BuildState),
    visit fuel fns stmt (some p) ls le st = some (none, st') →
    rest.length < fuel →
    visitSeq (fuel + 1) fns (stmt :: rest) (some p) ls le st =
      some (none, st') := by
  intro fuel fns stmt rest p ls le st st' hv hl
  show (match visit fuel fns stmt (some p) ls le st with
        | none => none
        | some (nxt, st1) => visitSeq fuel fns rest nxt ls le st1) =
      some (none, st')
  rw [hv]
  exact visitSeq_skip rest fuel fns ls le st' hl

/-- Witness for `c9_none_skips_rest_of_sequence`: a return followed by an
assignment; the assignment produces no node and no edge. -/
theorem c9_none_skips_rest_of_sequence_witness :
    visitSeq 3 [] [.ret "return x", .assign "y = 2"] (some 0) none none
        ⟨[], [], 0⟩ =
      some (none, ⟨[(0, ⟨"return x", ("(", ")")⟩)], [⟨some 0, 0, ""⟩], 1⟩) :=
  c9_none_skips_rest_of_sequence 2 [] (.ret "return x") [.assign "y = 2"]
    0 none none ⟨[], [], 0⟩
    ⟨[(0, ⟨"return x", ("(", ")")⟩)], [⟨some 0, 0, ""⟩], 1⟩ rfl (by decide)

/-- What a successful visit of a loop statement guarantees: the result
chains from the exit node, the header→exit edge labeled End Loop is in the
final edge list, and the body was traversed from the header with the loop
context set to this header and this exit, starting from a state that
already contains the exit node (created before the body is visited). -/
def LoopResult (fuel : Nat) (fns : List (String × List Stmt)) (label : String)
    (b : List Stmt) (parent : Option Nat) (st : BuildState)
    (r : Option Nat) (st' : BuildState) : Prop :=
  r = some (st.counter + 1)
  ∧ (⟨some st.counter, st.counter + 1, "End Loop"⟩ : FlowEdge) ∈ st'.edges
  ∧ ∃ bodyEnd st4,
      visitSeq fuel fns b (some st.counter) (some st.counter)
        (some (st.counter + 1))
        ⟨st.nodes ++ [(st.counter, ⟨label, ("\x7b\x7b", "\x7d\x7d")⟩),
                      (st.counter + 1, ⟨" ", ("((", "))")⟩)],
         st.edges ++ [⟨parent, st.counter, ""⟩], st.counter + 2⟩ =
        some (bodyEnd, st4)
      ∧ st' = pushEdge
          (match bodyEnd with
           | some bId => pushEdge st4 ⟨some bId, st.counter, "Loop"⟩
           | none => st4)
          ⟨some st.counter, st.counter + 1, "End Loop"⟩

/-- Claim C4: for both loop kinds the exit node is created before the body
is visited (the state handed to the body traversal already contains it),
the header→exit edge labeled End Loop is added unconditionally whenever the
loop visit succeeds, the body is traversed with the loop context set to
this header and exit, and a break visited with that exit as loop context
appends an edge labeled break targeting exactly that exit node. -/
theorem c4_loop_exit_unconditional_and_break_target :
    (∀ (fuel : Nat) (fns : List (String × List Stmt)) (t : String)
       (b : List Stmt) (parent ls le : Option Nat) (st : BuildState)
       (r : Option Nat) (st' : BuildState),
       visit (fuel + 1) fns (.whileS t b) parent ls le st = some (r, st') →
       LoopResult fuel fns ("While " ++ t) b parent st r st')
    ∧ (∀ (fuel : Nat) (fns : List (String × List Stmt)) (t : String)
       (b : List Stmt) (parent ls le : Option Nat) (st : BuildState)
       (r : Option Nat) (st' : BuildState),
       visit (fuel + 1) fns (.forS t b) parent ls le st = some (r, st') →
       LoopResult fuel fns ("For " ++ t) b parent st r st')
    ∧ (∀ (fuel : Nat) (fns : List (String × List Stmt)) (parent ls : Option Nat)
       (e : Nat) (st : BuildState),
       visit (fuel + 1) fns .brk parent ls (some e) st =
         some (none, pushEdge st ⟨parent, e, "break"⟩)) := by
  refine ⟨?_, ?_, fun _ _ _ _ _ _ => rfl⟩
  · intro fuel fns t b parent ls le st r st' h
    simp only [visit, add_node, pushEdge] at h
    rw [List.append_assoc] at h
    split at h
    · exact absurd h (by simp)
    · rename_i bodyEnd st4 heq
      simp only [Option.some.injEq, Prod.mk.injEq] at h
      obtain ⟨hr, hst⟩ := h
      refine ⟨hr.symm, ?_, bodyEnd, st4, heq, hst.symm⟩
      subst hst
      simp [pushEdge]
  · intro fuel fns t b parent ls le st r st' h
    simp only [visit, add_node, pushEdge] at h
    rw [List.append_assoc] at h
    split at h
    · exact absurd h (by simp)
    · rename_i bodyEnd st4 heq
      simp only [Option.some.injEq, Prod.mk.injEq] at h
      obtain ⟨hr, hst⟩ := h
      refine ⟨hr.symm, ?_, bodyEnd, st4, heq, hst.symm⟩
      subst hst
      simp [pushEdge]

/-- Witness for `c4_loop_exit_unconditional_and_break_target`: a concrete
while loop and a concrete for loop. -/
theorem c4_loop_exit_unconditional_and_break_target_witness :
    LoopResult 8 [] ("While " ++ "x < 10") [.assign "x = x + 1"] none
      ⟨[], [], 0⟩ (some 1)
      ⟨[(0, ⟨"While x < 10", ("\x7b\x7b", "\x7d\x7d")⟩),
        (1, ⟨" ", ("((", "))")⟩), (2, ⟨"x = x + 1", ("[/", "/]")⟩)],
       [⟨none, 0, ""⟩, ⟨some 0, 2, ""⟩, ⟨some 2, 0, "Loop"⟩,
        ⟨some 0, 1, "End Loop"⟩], 3⟩
    ∧ LoopResult 8 [] ("For " ++ "i") [.exprCall "print(i)" "print"] none
      ⟨[], [], 0⟩ (some 1)
      ⟨[(0, ⟨"For i", ("\x7b\x7b", "\x7d\x7d")⟩),
        (1, ⟨" ", ("((", "))")⟩), (2, ⟨"print(i)", ("[/", "/]")⟩)],
       [⟨none, 0, ""⟩, ⟨some 0, 2, ""⟩, ⟨some 2, 0, "Loop"⟩,
        ⟨some 0, 1, "End Loop"⟩], 3⟩ :=
  ⟨c4_loop_exit_unconditional_and_break_target.1 8 [] "x < 10"
     [.assign "x = x + 1"] none none none ⟨[], [], 0⟩ (some 1)
     ⟨[(0, ⟨"While x < 10", ("\x7b\x7b", "\x7d\x7d")⟩),
       (1, ⟨" ", ("((", "))")⟩), (2, ⟨"x = x + 1", ("[/", "/]")⟩)],
      [⟨none, 0, ""⟩, ⟨some 0, 2, ""⟩, ⟨some 2, 0, "Loop"⟩,
       ⟨some 0, 1, "End Loop"⟩], 3⟩ rfl,
   c4_loop_exit_unconditional_and_break_target.2.1 8 [] "i"
     [.exprCall "print(i)" "print"] none none none ⟨[], [], 0⟩ (some 1)
     ⟨[(0, ⟨"For i", ("\x7b\x7b", "\x7d\x7d")⟩),
       (1, ⟨" ", ("((", "))")⟩), (2, ⟨"print(i)", ("[/", "/]")⟩)],
      [⟨none, 0, ""⟩, ⟨some 0, 2, ""⟩, ⟨some 2, 0, "Loop"⟩,
       ⟨some 0, 1, "End Loop"⟩], 3⟩ rfl⟩

/-- Visiting a call statement whose callee is in the function table (and is
not the I/O name `input` or `print`) creates the call-site node and then
runs the unguarded inline traversal of the callee body from it, passing the
loop context of the caller through unchanged. -/
theorem inline_call_unfold :
    ∀ (fuel : Nat) (fns : List (String × List Stmt)) (lbl fname : String)
      (fbody : List Stmt) (parent ls le : Option Nat) (st : BuildState),
    fname ≠ "input" → fname ≠ "print" → lookupFn fns fname = some fbody →
    visit (fuel + 1) fns (.exprCall lbl fname) parent ls le st =
      visitSeqInline fuel fns fbody (some st.counter) ls le
        ⟨st.nodes ++ [(st.counter, ⟨lbl, ("[", "]")⟩)],
         st.edges ++ [⟨parent, st.counter, ""⟩], st.counter + 1⟩ := by
  intro fuel fns lbl fname fbody parent ls le st hin hpr hlook
  have hcond : ¬(fname = "input" ∨ fname = "print") := by
    rintro (h | h)
    · exact hin h
    · exact hpr h
  simp only [visit]
  rw [if_neg hcond, hlook]
  rfl

/-- Claim C10: a call to a function in the table is inlined by visiting the
callee body with the loop context of the caller passed through unchanged;
hence a break in the inlined body of a call made inside a loop adds an edge
labeled break to the exit node of that enclosing loop, and a continue adds
an edge labeled continue to the header node of that loop. -/
theorem c10_inline_passes_loop_context :
    (∀ (fuel : Nat) (fns : List (String × List Stmt)) (lbl fname : String)
       (fbody : List Stmt) (parent ls le : Option Nat) (st : BuildState),
       fname ≠ "input" → fname ≠ "print" → lookupFn fns fname = some fbody →
       visit (fuel + 1) fns (.exprCall lbl fname) parent ls le st =
         visitSeqInline fuel fns fbody (some st.counter) ls le
           ⟨st.nodes ++ [(st.counter, ⟨lbl, ("[", "]")⟩)],
            st.edges ++ [⟨parent, st.counter, ""⟩], st.counter + 1⟩)
    ∧ (∀ (fuel : Nat) (fns : List (String × List Stmt)) (lbl fname : String)
       (parent ls : Option Nat) (e : Nat) (st : BuildState),
       fname ≠ "input" → fname ≠ "print" → lookupFn fns fname = some [.brk] →
       visit (fuel + 3) fns (.exprCall lbl fname) parent ls (some e) st =
         some (none,
           ⟨st.nodes ++ [(st.counter, ⟨lbl, ("[", "]")⟩)],
            (st.edges ++ [⟨parent, st.counter, ""⟩]) ++
              [⟨some st.counter, e, "break"⟩], st.counter + 1⟩))
    ∧ (∀ (fuel : Nat) (fns : List (String × List Stmt)) (lbl fname : String)
       (parent le : Option Nat) (hd : Nat) (st : BuildState),
       fname ≠ "input" → fname ≠ "print" → lookupFn fns fname = some [.cont] →
       visit (fuel + 3) fns (.exprCall lbl fname) parent (some hd) le st =
         some (none,
           ⟨st.nodes ++ [(st.counter, ⟨lbl, ("[", "]")⟩)],
            (st.edges ++ [⟨parent, st.counter, ""⟩]) ++
              [⟨some st.counter, hd, "continue"⟩], st.counter + 1⟩)) := by
  refine ⟨inline_call_unfold, ?_, ?_⟩
  · intro fuel fns lbl fname parent ls e st hin hpr hlook
    show visit (fuel + 2 + 1) fns (.exprCall lbl fname) parent ls (some e) st = _
    rw [inline_call_unfold (fuel + 2) fns lbl fname [.brk] parent ls (some e)
      st hin hpr hlook]
    rfl
  · intro fuel fns lbl fname parent le hd st hin hpr hlook
    show visit (fuel + 2 + 1) fns (.exprCall lbl fname) parent (some hd) le st = _
    rw [inline_call_unfold (fuel + 2) fns lbl fname [.cont] parent (some hd) le
      st hin hpr hlook]
    rfl

/-- Witness for `c10_inline_passes_loop_context`: inlined callees whose
bodies are a single break and a single continue, called with a loop
context. -/
theorem c10_inline_passes_loop_context_witness :
    visit 3 [("g", [.assign "a = 1"])] (.exprCall "g()" "g") (some 0)
        none none ⟨[], [], 1⟩ =
      visitSeqInline 2 [("g", [.assign "a = 1"])] [.assign "a = 1"] (some 1)
        none none ⟨[(1, ⟨"g()", ("[", "]")⟩)], [⟨some 0, 1, ""⟩], 2⟩
    ∧ visit 3 [("g", [.brk])] (.exprCall "g()" "g") (some 0)
        none (some 1) ⟨[], [], 2⟩ =
      some (none, ⟨[(2, ⟨"g()", ("[", "]")⟩)],
        ([] ++ [⟨some 0, 2, ""⟩]) ++ [⟨some 2, 1, "break"⟩], 3⟩)
    ∧ visit 3 [("g", [.cont])] (.exprCall "g()" "g") (some 0)
        (some 1) none ⟨[], [], 2⟩ =
      some (none, ⟨[(2, ⟨"g()", ("[", "]")⟩)],
        ([] ++ [⟨some 0, 2, ""⟩]) ++ [⟨some 2, 1, "continue"⟩], 3⟩) :=
  ⟨c10_inline_passes_loop_context.1 2 [("g", [.assign "a = 1"])] "g()" "g"
     [.assign "a = 1"] (some 0) none none ⟨[], [], 1⟩
     (by decide) (by decide) rfl,
   c10_inline_passes_loop_context.2.1 0 [("g", [.brk])] "g()" "g"
     (some 0) none 1 ⟨[], [], 2⟩ (by decide) (by decide) rfl,
   c10_inline_passes_loop_context.2.2 0 [("g", [.cont])] "g()" "g"
     (some 0) none 1 ⟨[], [], 2⟩ (by decide) (by decide) rfl⟩

/-- Claim C8: in every successful build the node ids listed in creation
order are exactly 0, 1, ..., length-1 — pairwise unique and strictly
increasing — the first node created is the single Start sentinel and the
last node created is the single End sentinel. -/
theorem c8_ids_unique_increasing_sentinels :
    ∀ (fuel : Nat) (prog : List Stmt) (nodes : List (Nat × FlowNode))
      (edges : List FlowEdge),
    parse_code_to_ast fuel prog = some (nodes, edges) →
    nodes.map Prod.fst = List.range nodes.length
    ∧ nodes.head? = some (0, ⟨"Start", ("((", "))")⟩)
    ∧ nodes.getLast? = some (nodes.length - 1, ⟨"End", ("((", "))")⟩)
    ∧ nodes.countP
        (fun q => decide (q.2 = (⟨"Start", ("((", "))")⟩ : FlowNode))) = 1
    ∧ nodes.countP
        (fun q => decide (q.2 = (⟨"End", ("((", "))")⟩ : FlowNode))) = 1 := by
  intro fuel prog nodes edges h
  rcases hmt : mainTraversal fuel prog with _ | ⟨lastId, stM⟩
  · simp only [parse_code_to_ast, hmt] at h
    exact absurd h (by simp)
  · obtain ⟨mid, hn, hr, hc, hsent⟩ :=
      mainTraversal_structure fuel prog lastId stM hmt
    have hnodes : (0, (⟨"Start", ("((", "))")⟩ : FlowNode)) ::
        (mid ++ [(1 + mid.length, (⟨"End", ("((", "))")⟩ : FlowNode))]) =
        nodes := by
      cases lastId <;>
        simp only [parse_code_to_ast, hmt, add_node, pushEdge,
          Option.some.injEq, Prod.mk.injEq] at h <;>
      · rw [← h.1, hn, hc]
        simp [List.cons_append]
    subst hnodes
    have hlen : ((0, (⟨"Start", ("((", "))")⟩ : FlowNode)) ::
        (mid ++ [(1 + mid.length, (⟨"End", ("((", "))")⟩ : FlowNode))])).length =
        mid.length + 2 := by
      simp only [List.length_cons, List.length_append, List.length_nil]
    have hmidS : mid.countP
        (fun q => decide (q.2 = (⟨"Start", ("((", "))")⟩ : FlowNode))) = 0 :=
      List.countP_eq_zero.2 (fun q hq => by simpa using (hsent q hq).1)
    have hmidE : mid.countP
        (fun q => decide (q.2 = (⟨"End", ("((", "))")⟩ : FlowNode))) = 0 :=
      List.countP_eq_zero.2 (fun q hq => by simpa using (hsent q hq).2)
    refine ⟨?_, rfl, ?_, ?_, ?_⟩
    · rw [hlen, range_shape]
      simp only [List.map_cons, List.map_append, hr]
      simp
    · rw [hlen, ← List.cons_append, List.getLast?_concat]
      have h21 : mid.length + 2 - 1 = 1 + mid.length := by omega
      rw [h21]
    · simp [List.countP_cons, List.countP_append, hmidS, FlowNode.mk.injEq]
    · simp [List.countP_cons, List.countP_append, hmidE, FlowNode.mk.injEq]

/-- Witness for `c8_ids_unique_increasing_sentinels` on the one-assignment
program. -/
theorem c8_ids_unique_increasing_sentinels_witness :
    ([(0, ⟨"Start", ("((", "))")⟩), (1, ⟨"x = 1", ("[/", "/]")⟩),
      (2, ⟨"End", ("((", "))")⟩)] : List (Nat × FlowNode)).map Prod.fst =
      List.range 3
    ∧ ([(0, ⟨"Start", ("((", "))")⟩), (1, ⟨"x = 1", ("[/", "/]")⟩),
        (2, ⟨"End", ("((", "))")⟩)] : List (Nat × FlowNode)).head? =
      some (0, ⟨"Start", ("((", "))")⟩)
    ∧ ([(0, ⟨"Start", ("((", "))")⟩), (1, ⟨"x = 1", ("[/", "/]")⟩),
        (2, ⟨"End", ("((", "))")⟩)] : List (Nat × FlowNode)).getLast? =
      some (2, ⟨"End", ("((", "))")⟩)
    ∧ ([(0, ⟨"Start", ("((", "))")⟩), (1, ⟨"x = 1", ("[/", "/]")⟩),
        (2, ⟨"End", ("((", "))")⟩)] : List (Nat × FlowNode)).countP
        (fun q => decide (q.2 = (⟨"Start", ("((", "))")⟩ : FlowNode))) = 1
    ∧ ([(0, ⟨"Start", ("((", "))")⟩), (1, ⟨"x = 1", ("[/", "/]")⟩),
        (2, ⟨"End", ("((", "))")⟩)] : List (Nat × FlowNode)).countP
        (fun q => decide (q.2 = (⟨"End", ("((", "))")⟩ : FlowNode))) = 1 :=
  c8_ids_unique_increasing_sentinels 9 [.assign "x = 1"]
    [(0, ⟨"Start", ("((", "))")⟩), (1, ⟨"x = 1", ("[/", "/]")⟩),
     (2, ⟨"End", ("((", "))")⟩)]
    [⟨some 0, 1, ""⟩, ⟨some 1, 2, ""⟩] rfl

/-- Claim C7 (amended): for every assignment or augmented assignment the
builder creates exactly one node labeled with the statement text, with the
parallelogram delimiters `[/ /]` (the same delimiters as I/O nodes, not the
`[ ]` delimiters of a plain expression statement), adds one unlabeled edge
from the predecessor to it, and returns the new node. -/
theorem c7_assign_behavior :
    ∀ (fuel : Nat) (fns : List (String × List Stmt)) (label : String)
      (parent ls le : Option Nat) (st : BuildState),
    visit (fuel + 1) fns (.assign label) parent ls le st =
      some (some st.counter,
        ⟨st.nodes ++ [(st.counter, ⟨label, ("[/", "/]")⟩)],
         st.edges ++ [⟨parent, st.counter, ""⟩], st.counter + 1⟩) := by
  intro fuel fns label parent ls le st
  rfl
